import Mathlib

/-!
Shallow embedding of the MLLog logging engine (src/mllog.hpp), restricted to
the delivery pipeline that the verified properties are about: the phased
state machine (Off / Light / Full), the bounded pending buffer with
oldest-first eviction, promotion with buffered replay, size-triggered file
rotation with roll-index wrap-around, the default-prefix / pattern-program
line formatting, and the error-reporting routing.

External reality (the OS file system, the wall clock, `strftime`, pid/tid)
is modelled by an `Env` of oracles; file writes and opens consume
successive oracle indices, so a single environment describes which
operations succeed or fail.  Durable file output and console output are
recorded as an event trace inside the state.  C++ `std::string::size()` is
modelled by `String.length`.
-/

namespace MLLog

/-- Embeds `ML_Logger::Level` (mllog.hpp): Debug = 0 … Alert = 6. -/
inductive Level
  | Debug
  | Info
  | Notice
  | Warning
  | Error
  | Critical
  | Alert
deriving DecidableEq, Repr

/-- Numeric value of a level, as declared in the C++ `enum class Level`. -/
def Level.toNat : Level → Nat
  | .Debug => 0
  | .Info => 1
  | .Notice => 2
  | .Warning => 3
  | .Error => 4
  | .Critical => 5
  | .Alert => 6

/-- Embeds `ML_Logger::levelToStringC_`. -/
def levelToStringC : Level → String
  | .Debug => "DEBUG"
  | .Info => "INFO"
  | .Notice => "NOTICE"
  | .Warning => "WARNING"
  | .Error => "ERROR"
  | .Critical => "CRITICAL"
  | .Alert => "ALERT"

/-- Embeds `ML_Logger::Phase`: Off = 0, Light = 1, Full = 2. -/
inductive Phase
  | Off
  | Light
  | Full
deriving DecidableEq, Repr

/-- Broken-down local time (`std::tm`), only the fields the renderer can see. -/
structure Tm where
  year : Nat
  month : Nat
  day : Nat
  hour : Nat
  minute : Nat
  sec : Nat
deriving DecidableEq, Repr

/-- The snapshot produced by `updateAndGetTimeCache_`: broken-down time,
millisecond offset in the current second, and the cached per-second
formatted string. -/
structure TimeInfo where
  tm : Tm
  ms : Nat
  time_c : String
deriving DecidableEq, Repr

/-- One call of `ML_Logger::log(file_short, file_full, func, line, lv,
original, isNewLine)`, together with the time snapshot the call observes. -/
structure Rec where
  file_short : String
  file_full : String
  func : String
  line : Int
  lv : Level
  msg : String
  isNewLine : Bool
  t : TimeInfo
deriving DecidableEq, Repr

/-- Observable effects on the outside world, in chronological order:
a file opened by `rollFiles_` (with its roll index and whether it was
opened in truncate mode), data durably written to the current file, and
a line written to the console. -/
inductive FsEvent
  | opened (rollIndex : Nat) (truncate : Bool)
  | wrote (data : String)
  | console (data : String)
deriving DecidableEq, Repr

/-- The data that reached the log file, in write order. -/
def writtenData (evts : List FsEvent) : List String :=
  evts.filterMap fun e =>
    match e with
    | .wrote d => some d
    | _ => none

/-- Oracles for everything outside the logger: whether the k-th
write+flush leaves the stream good, whether the k-th `open` succeeds, the
end-of-file position found after the k-th successful open (`tellp`), the
k-th self-heal inode check, the C library `strftime`, pid / hashed tid,
and the timestamp used on a day change. -/
structure Env where
  writeOk : Nat → Bool
  openOk : Nat → Bool
  openFileSize : Nat → Nat
  healNeedReopen : Nat → Bool
  strftime : String → Tm → String
  pid : Nat
  tid : Nat
  nowTimestamp : String

/-- Embeds `PatType` of the pattern engine. -/
inductive PatType
  | Lit
  | DateChunk
  | Ms
  | LevelShort
  | LevelLong
  | LoggerName
  | PID
  | TID
  | FileShort
  | FileFull
  | Line
  | Func
  | Message
  | ColorStart
  | ColorStop
deriving DecidableEq, Repr

/-- Embeds `PatOp`: one compiled pattern operation. -/
structure PatOp where
  type : PatType
  text : String
deriving DecidableEq, Repr

/-- The `ML_Logger` private state that the delivery pipeline reads and
writes, plus the oracle cursors (`writeCount`, `openCount`, `healCount`)
and the observation traces (`events`, `reports`).  A call of
`reportError_` is recorded by appending its message to `reports`. -/
structure LogState where
  phase : Phase
  log_enabled : Bool
  logLevel : Level
  outputToFile : Bool
  outputToScreen : Bool
  message_only : Bool
  add_newline : Bool
  auto_flush : Bool
  name : String
  baseName : String
  baseFullNameWithDateAndTime : String
  start_timestamp : String
  currentRollIndex : Nat
  maxRolls : Nat
  maxSizeInBytes : Nat
  currentSize : Nat
  initialized : Bool
  isRoll : Bool
  fileOpen : Bool
  curFilePath : String
  need_day_switch : Bool
  pending : List String
  pending_bytes : Nat
  has_pattern : Bool
  pat_ops : List PatOp
  pattern_raw : String
  heal_every : Nat
  heal_counter : Nat
  writeCount : Nat
  openCount : Nat
  healCount : Nat
  events : List FsEvent
  reports : List String
deriving Repr

/-- Constant `ML_Logger::PENDING_MAX_BYTES`. -/
def PENDING_MAX_BYTES : Nat := 4 * 1024 * 1024

/-- Constant `ML_Logger::PENDING_MAX_COUNT`. -/
def PENDING_MAX_COUNT : Nat := 2000

/-- Constant `ML_Logger::MAX_LOG_MESSAGE_SIZE` (5 MiB). -/
def MAX_LOG_MESSAGE_SIZE : Nat := 1024 * 1024 * 5

/-- Constant `ML_Logger::TRUNCATED_MESSAGE`. -/
def TRUNCATED_MESSAGE : String := "\n... [Message Truncated]"

/-- Embeds `ML_Logger::maybeTruncate_`. -/
def maybeTruncate (s : String) : String :=
  if s.length ≤ MAX_LOG_MESSAGE_SIZE then s
  else (s.take MAX_LOG_MESSAGE_SIZE) ++ TRUNCATED_MESSAGE

/-- Total byte size of a list of buffered lines. -/
def sumLen (L : List String) : Nat := (L.map String.length).sum

/-- The eviction loop of `enqueuePendingLine_NoIO_UnsafeLocked_`:
`while (_pending_bytes > PENDING_MAX_BYTES || _pending.size() >
PENDING_MAX_COUNT) { _pending_bytes -= _pending.front().size();
_pending.pop_front(); }`.  The C++ loop never pops an empty deque as long
as `_pending_bytes` equals the total size of `_pending`; the `[]` case
below is that unreachable situation. -/
def evictOldest (maxBytes maxCount : Nat) : Nat → List String → Nat × List String
  | b, [] => (b, [])
  | b, x :: rest =>
    if b > maxBytes ∨ (x :: rest).length > maxCount then
      evictOldest maxBytes maxCount (b - x.length) rest
    else (b, x :: rest)

/-- Embeds `ML_Logger::enqueuePendingLine_NoIO_UnsafeLocked_`. -/
def enqueuePendingLine (s : LogState) (line : String) : LogState :=
  let b := s.pending_bytes + line.length
  let q := s.pending ++ [line]
  let r := evictOldest PENDING_MAX_BYTES PENDING_MAX_COUNT b q
  { s with pending_bytes := r.1, pending := r.2 }

/-! ## Pattern compiler (`compilePattern_`) -/

/-- One step of the scanner state of `compilePattern_`: the pending
literal run, the pending date chunk, and the emitted operations. -/
def flushDate (out : List PatOp) (date : String) : List PatOp :=
  if date = "" then out else out ++ [⟨PatType.DateChunk, date⟩]

/-- Emit the pending literal run, as `flush_lit` does. -/
def flushLit (out : List PatOp) (lit : String) : List PatOp :=
  if lit = "" then out else out ++ [⟨PatType.Lit, lit⟩]

/-- Emit a structural (non-date) operation: `flush_date(); flush_lit();
out.push_back(op)`. -/
def emitOp (out : List PatOp) (date lit : String) (ty : PatType) : List PatOp :=
  flushLit (flushDate out date) lit ++ [⟨ty, ""⟩]

/-- The left-to-right scan of `compilePattern_` over the template
characters, carrying the literal run `lit`, the date chunk `date` and the
emitted operations `out`. -/
def compileLoop : List Char → String → String → List PatOp → List PatOp
  | [], lit, date, out => flushLit (flushDate out date) lit
  | '%' :: [], lit, date, out =>
    -- a lone trailing '%' joins the open chunk, then the scan ends
    if date = "" then flushLit (flushDate out date) (lit.push '%')
    else flushLit (flushDate out (date.push '%')) lit
  | '%' :: c :: rest, lit, date, out =>
    if c = 'v' then compileLoop rest "" "" (emitOp out date lit PatType.Message)
    else if c = 'l' then compileLoop rest "" "" (emitOp out date lit PatType.LevelShort)
    else if c = 'L' then compileLoop rest "" "" (emitOp out date lit PatType.LevelLong)
    else if c = 'n' then compileLoop rest "" "" (emitOp out date lit PatType.LoggerName)
    else if c = 'P' then compileLoop rest "" "" (emitOp out date lit PatType.PID)
    else if c = 't' then compileLoop rest "" "" (emitOp out date lit PatType.TID)
    else if c = 's' then compileLoop rest "" "" (emitOp out date lit PatType.FileShort)
    else if c = 'g' then compileLoop rest "" "" (emitOp out date lit PatType.FileFull)
    else if c = '#' then compileLoop rest "" "" (emitOp out date lit PatType.Line)
    else if c = '!' then compileLoop rest "" "" (emitOp out date lit PatType.Func)
    else if c = '^' then compileLoop rest "" "" (emitOp out date lit PatType.ColorStart)
    else if c = '$' then compileLoop rest "" "" (emitOp out date lit PatType.ColorStop)
    else if c = 'e' then
      if date = "" then compileLoop rest "" "" (flushLit out lit ++ [⟨PatType.Ms, ""⟩])
      else compileLoop rest lit (date ++ "%e") out
    else
      -- any other %X starts or extends a date chunk
      if date = "" then compileLoop rest "" (String.mk ['%', c]) (flushLit out lit)
      else compileLoop rest lit ((date.push '%').push c) out
  | c :: rest, lit, date, out =>
    if date = "" then compileLoop rest (lit.push c) date out
    else compileLoop rest lit (date.push c) out

/-- Embeds `ML_Logger::compilePattern_`: returns the C++ boolean result together
with the operation vector it filled (the only caller clears the vector
before the call, so an empty template leaves it empty). -/
def compilePattern (p : String) : Bool × List PatOp :=
  if p = "" then (false, [])
  else
    let ops := compileLoop p.toList "" "" []
    (ops ≠ [], ops)

/-- Embeds `ML_Logger::setPattern`. -/
def setPattern (s : LogState) (pattern : String) : LogState :=
  let r := compilePattern pattern
  { s with pattern_raw := pattern, pat_ops := r.2, has_pattern := r.1 }

/-! ## Pattern renderer and the default line prefix -/

/-- Embeds `snprintf("%03d", ms)`: zero-pad to three digits. -/
def pad3 (n : Nat) : String :=
  if n < 10 then "00" ++ toString n
  else if n < 100 then "0" ++ toString n
  else toString n

/-- The `%e` pre-substitution of `renderPattern_`'s DateChunk case:
replace each `%e` by the `@@@` placeholder before calling `strftime`. -/
def escapeMs : List Char → List Char
  | [] => []
  | '%' :: 'e' :: rest => '@' :: '@' :: '@' :: escapeMs rest
  | c :: rest => c :: escapeMs rest

/-- The post-substitution of the DateChunk case: replace each `@@@` in
the `strftime` output by the zero-padded milliseconds. -/
def substMarker (ms : Nat) : List Char → String
  | [] => ""
  | '@' :: '@' :: '@' :: rest => pad3 ms ++ substMarker ms rest
  | c :: rest => String.mk [c] ++ substMarker ms rest

/-- One operation of `renderPattern_`. -/
def renderOp (env : Env) (name : String) (tm : Tm) (ms : Nat) (lv : Level)
    (fs ff fn : String) (line : Int) (msg : String) (op : PatOp) : String :=
  match op.type with
  | .Lit => op.text
  | .LevelShort => levelToStringC lv
  | .LevelLong => levelToStringC lv
  | .LoggerName => name
  | .PID => toString env.pid
  | .TID => toString env.tid
  | .FileShort => fs
  | .FileFull => ff
  | .Line => toString line
  | .Func => fn
  | .Message => msg
  | .Ms => pad3 ms
  | .DateChunk =>
    let r := env.strftime (String.mk (escapeMs op.text.toList)) tm
    if r = "" then "" else substMarker ms r.toList
  | .ColorStart => ""
  | .ColorStop => ""

/-- Embeds `ML_Logger::renderPattern_` (appending each rendered op in order). -/
def renderPattern (env : Env) (name : String) (ops : List PatOp) (tm : Tm)
    (ms : Nat) (lv : Level) (fs ff fn : String) (line : Int) (msg : String) : String :=
  String.join (ops.map (renderOp env name tm ms lv fs ff fn line msg))

/-- Embeds `ML_Logger::buildPrefix_`: `snprintf("%s.%03d %s [%s:%d] ", time_c,
ms, levelToStringC_(lv), file_short, line)`. -/
def buildPrefixStr (time_c : String) (ms : Nat) (lv : Level) (fs : String)
    (line : Int) : String :=
  time_c ++ "." ++ pad3 ms ++ " " ++ levelToStringC lv ++ " [" ++ fs ++ ":"
    ++ toString line ++ "] "

/-- The renderer selection shared by the Light and Full branches of
`ML_Logger::log`: raw message when `_message_only`, the compiled pattern
when one is published and non-empty, the default fixed prefix
otherwise. -/
def formatLine (env : Env) (s : LogState) (t : TimeInfo) (lv : Level)
    (fs ff fn : String) (line : Int) (msg : String) : String :=
  if s.message_only then msg
  else if s.has_pattern && !s.pat_ops.isEmpty then
    renderPattern env s.name s.pat_ops t.tm t.ms lv fs ff fn line msg
  else buildPrefixStr t.time_c t.ms lv fs line ++ msg

/-! ## Storage layer -/

/-- Record a `reportError_` call. -/
def report (s : LogState) (m : String) : LogState :=
  { s with reports := s.reports ++ [m] }

/-- Embeds `ML_Logger::rollFiles_`: close, advance the roll index (wrapping past
`_maxRolls` to 1 and latching `_isRoll`), derive the slot path, open it
(truncate mode once `_isRoll` is latched, append mode before), and on
success reposition to end-of-file to learn the true size.  Directory
creation is outside the model. -/
def rollFiles (env : Env) (s : LogState) : LogState :=
  if s.baseName = "" then s
  else
    let idx0 := s.currentRollIndex + 1
    let wrapped := idx0 > s.maxRolls
    let idx := if wrapped then 1 else idx0
    let isR := if wrapped then true else s.isRoll
    let path := s.baseFullNameWithDateAndTime ++ "_" ++ toString idx ++ ".log"
    let k := s.openCount
    let s := { s with fileOpen := false, currentRollIndex := idx, isRoll := isR,
                      curFilePath := path, openCount := k + 1 }
    if env.openOk k then
      { s with fileOpen := true, currentSize := env.openFileSize k,
               heal_counter := 0,
               events := s.events ++ [FsEvent.opened idx isR] }
    else
      report { s with currentSize := 0 } ("Failed to open new log file: " ++ path)

/-- The roll index produced by one `rollFiles_` call:
`_currentRollIndex++`, wrapping to 1 once it exceeds `_maxRolls`. -/
def rollIdxNext (s : LogState) : Nat :=
  if s.currentRollIndex + 1 > s.maxRolls then 1 else s.currentRollIndex + 1

/-- The `_isRoll` flag after one `rollFiles_` call: latched to true on
wrap-around, otherwise kept. -/
def rollWrapFlag (s : LogState) : Bool :=
  if s.currentRollIndex + 1 > s.maxRolls then true else s.isRoll

/-- Embeds `ML_Logger::onDayChangeLocked_`. -/
def onDayChange (env : Env) (s : LogState) : LogState :=
  { s with fileOpen := false, initialized := false, isRoll := false,
           currentRollIndex := 0, currentSize := 0,
           start_timestamp := env.nowTimestamp,
           baseFullNameWithDateAndTime := s.baseName ++ "_" ++ env.nowTimestamp,
           curFilePath := "", heal_counter := 0 }

/-- Embeds `ML_Logger::maybeHealUnlinked_` (POSIX branch): every `_heal_every`
writes, ask the environment whether the path no longer matches the open
handle; if so reopen the same path in append mode and resynchronise the
size. -/
def maybeHealUnlinked (env : Env) (s : LogState) : LogState :=
  if s.heal_every = 0 ∨ s.outputToFile = false ∨ s.fileOpen = false ∨ s.curFilePath = "" then s
  else if s.heal_counter + 1 < s.heal_every then
    { s with heal_counter := s.heal_counter + 1 }
  else
    let s := { s with heal_counter := 0, healCount := s.healCount + 1 }
    if env.healNeedReopen (s.healCount - 1) then
      let k := s.openCount
      let s := { s with openCount := k + 1 }
      if env.openOk k then
        { s with fileOpen := true, currentSize := env.openFileSize k }
      else
        report { s with fileOpen := false, initialized := false }
          ("Heal reopen failed: " ++ s.curFilePath)
    else s

/-- The tail of `writeToFile_` after the payload reached the stream:
optional auto-flush (whose failure invalidates the handle), size
accounting, and the post-write size-triggered roll. -/
def afterWrite (env : Env) (s : LogState) (msgSize : Nat) : LogState :=
  let flushOk := if s.auto_flush then env.writeOk s.writeCount else true
  let s := if s.auto_flush then { s with writeCount := s.writeCount + 1 } else s
  if flushOk = false then
    report { s with fileOpen := false, initialized := false } "Log flush failed."
  else
    let s := { s with currentSize := s.currentSize + msgSize }
    if s.currentSize ≥ s.maxSizeInBytes then rollFiles env s else s

/-- Embeds `ML_Logger::writeToFile_`: self-heal check, lazy (re)open, the
pre-write size-triggered roll, the write with its single
close-reopen-retry, flush, and the post-write roll. -/
def writeToFile (env : Env) (s : LogState) (msg : String) (isNewLine : Bool) : LogState :=
  if s.outputToFile = false then s
  else
    let s := maybeHealUnlinked env s
    let s := if s.fileOpen = false then { rollFiles env s with initialized := true } else s
    if s.fileOpen = false then
      report s ("Failed to open file. Message: " ++ msg)
    else
      let msgSize := msg.length + (if isNewLine then 1 else 0)
      let s := if s.currentSize > 0 ∧ s.currentSize + msgSize > s.maxSizeInBytes then
                 rollFiles env s
               else s
      let payload := msg ++ (if isNewLine then "\n" else "")
      let ok := s.fileOpen && env.writeOk s.writeCount
      let s := { s with writeCount := s.writeCount + 1,
                        events := if ok then s.events ++ [FsEvent.wrote payload] else s.events }
      if ok then afterWrite env s msgSize
      else
        let s := { s with fileOpen := false }
        if s.curFilePath = "" then
          report { s with initialized := false } "Log write failed and no current path."
        else
          let k := s.openCount
          let s := { s with openCount := k + 1, fileOpen := env.openOk k }
          let ok2 := s.fileOpen && env.writeOk s.writeCount
          let s := { s with writeCount := s.writeCount + 1,
                            events := if ok2 then s.events ++ [FsEvent.wrote payload] else s.events }
          if ok2 then afterWrite env s msgSize
          else
            report { s with fileOpen := false, initialized := false } "Log write retry failed."

/-! ## Promotion and replay -/

/-- The replay loop shared by `promoteToFull` and
`tryAutoPromoteToFull_NoThrow_`: for each buffered line, roll first when
the size cap would be crossed, write the line, and on a bad stream close
the handle, drop `_initialized`, optionally report (`promoteToFull` does,
the automatic path does not) and return with the buffer kept; after a
fully successful pass clear the buffer and move to Full. -/
def replayPending (env : Env) (failReport : Option String) :
    List String → LogState → LogState
  | [], s => { s with pending := [], pending_bytes := 0, phase := Phase.Full }
  | line :: rest, s =>
    let sz := line.length
    let s := if s.currentSize > 0 ∧ s.currentSize + sz > s.maxSizeInBytes then
               rollFiles env s
             else s
    let ok := s.fileOpen && env.writeOk s.writeCount
    let s := { s with writeCount := s.writeCount + 1,
                      events := if ok then s.events ++ [FsEvent.wrote line] else s.events }
    if ok then
      let s := { s with currentSize := s.currentSize + sz }
      let s := if s.currentSize ≥ s.maxSizeInBytes then rollFiles env s else s
      replayPending env failReport rest s
    else
      let s := { s with fileOpen := false, initialized := false }
      match failReport with
      | some m => report s m
      | none => s

/-- Embeds `ML_Logger::promoteToFull`. -/
def promoteToFull (env : Env) (s : LogState) : LogState :=
  if s.phase = Phase.Full then s
  else if s.outputToFile = false then
    { s with phase := Phase.Full, pending := [], pending_bytes := 0 }
  else
    let s := if s.initialized = false then { rollFiles env s with initialized := true }
             else if s.fileOpen = false then rollFiles env s
             else s
    if s.fileOpen = false then
      report s "promoteToFull(): open log file failed, stay in Light."
    else
      replayPending env (some "promoteToFull(): flush pending failed; keeping pending.")
        s.pending s

/-- Embeds `ML_Logger::tryAutoPromoteToFull_NoThrow_`. -/
def tryAutoPromote (env : Env) (s : LogState) : LogState :=
  if s.phase ≠ Phase.Light then s
  else if s.outputToFile = false then
    { s with phase := Phase.Full, pending := [], pending_bytes := 0 }
  else
    let s := if s.initialized = false ∨ s.fileOpen = false then
               { rollFiles env s with initialized := true }
             else s
    if s.fileOpen = false then s
    else replayPending env none s.pending s

/-! ## Ingestion -/

/-- Embeds `ML_Logger::writeToTargets_`: consume the day-switch flag, lazily
initialise the file, then write to file and console. -/
def writeToTargets (env : Env) (s : LogState) (formatted : String)
    (isNewLine : Bool) : LogState :=
  let day := s.need_day_switch
  let s := { s with need_day_switch := false }
  let s := if day then onDayChange env s else s
  let s := if s.outputToFile && !s.initialized then
             { rollFiles env s with initialized := true }
           else s
  let s := if s.outputToFile then writeToFile env s formatted isNewLine else s
  if s.outputToScreen then
    { s with events := s.events ++
        [FsEvent.console (formatted ++ (if isNewLine then "\n" else ""))] }
  else s

/-- The fully rendered line that one Light-phase `log` call builds
before echoing and buffering it: message truncation, renderer selection,
trailing newline when requested. -/
def renderedLine (env : Env) (s : LogState) (r : Rec) : String :=
  let core := formatLine env s r.t r.lv r.file_short r.file_full r.func r.line
    (maybeTruncate r.msg)
  if r.isNewLine then core ++ "\n" else core

/-- The rendered lines of a record sequence, under a fixed configuration. -/
def renderedAll (env : Env) (s : LogState) (recs : List Rec) : List String :=
  recs.map (renderedLine env s)

/-- Embeds `ML_Logger::log`: drop when disabled or below the threshold; in
Light phase render the line (`renderedLine`), echo it to the console,
enqueue it, then attempt automatic promotion; in Full phase render and
dispatch to the targets. -/
def logStep (env : Env) (s : LogState) (r : Rec) : LogState :=
  if s.log_enabled = false ∨ r.lv.toNat < s.logLevel.toNat then s
  else if s.phase ≠ Phase.Full then
    let linebuf := renderedLine env s r
    let s := if s.outputToScreen then
               { s with events := s.events ++ [FsEvent.console linebuf] }
             else s
    let s := enqueuePendingLine s linebuf
    tryAutoPromote env s
  else
    let formatted := formatLine env s r.t r.lv r.file_short r.file_full r.func
      r.line (maybeTruncate r.msg)
    writeToTargets env s formatted r.isNewLine

/-- A sequence of `log` calls, first record first. -/
def ingestAll (env : Env) (recs : List Rec) (s : LogState) : LogState :=
  recs.foldl (fun s r => logStep env s r) s

/-! ## Error reporting (`reportError_`) -/

/-- Destination of a diagnostic issued by `reportError_`. -/
inductive ErrSink
  | fallbackStream
  | userHandler
deriving DecidableEq, Repr

/-- What one `reportError_` call did: where the diagnostic went and
whether the user handler was invoked. -/
structure ReportOutcome where
  sink : ErrSink
  handlerCalled : Bool
deriving DecidableEq, Repr

/-- Embeds `ML_Logger::reportError_`.  Here `inLogging` is the thread-local
`in_logging_flag_()`; the user handler is modelled in the `Except` monad
so that a handler that throws is an `.error` value, which the C++
`try/catch(...)` swallows.  The function itself therefore always returns
`.ok`: no exception escapes. -/
def reportError (inLogging : Bool) (handler : Option (String → Except Unit Unit))
    (m : String) : Except Unit ReportOutcome :=
  if inLogging then Except.ok ⟨ErrSink.fallbackStream, false⟩
  else
    match handler with
    | some h =>
      match h ("MLLOG INTERNAL: " ++ m) with
      | .ok _ => Except.ok ⟨ErrSink.userHandler, true⟩
      | .error _ => Except.ok ⟨ErrSink.userHandler, true⟩
    | none => Except.ok ⟨ErrSink.fallbackStream, false⟩

/-! ## Concrete fixtures used to evaluate the theorems -/

/-- An environment in which every write, flush and open succeeds. -/
def testEnvOk : Env :=
  { writeOk := fun _ => true, openOk := fun _ => true,
    openFileSize := fun _ => 0, healNeedReopen := fun _ => false,
    strftime := fun f _ => f, pid := 1, tid := 2,
    nowTimestamp := "20250101" }

/-- An environment in which every attempt to open a file fails (the
filesystem is not ready yet). -/
def testEnvNoOpen : Env :=
  { testEnvOk with openOk := fun _ => false }

/-- An environment in which the second write fails and everything else
succeeds. -/
def testEnvWrite1Fails : Env :=
  { testEnvOk with writeOk := fun k => !(k == 1) }

/-- A freshly started logger in Light phase: enabled, file and console
targets as set, file never opened. -/
def testState : LogState :=
  { phase := Phase.Light, log_enabled := true, logLevel := Level.Debug,
    outputToFile := true, outputToScreen := false, message_only := false,
    add_newline := true, auto_flush := true, name := "default",
    baseName := "b", baseFullNameWithDateAndTime := "b_20250101",
    start_timestamp := "20250101", currentRollIndex := 0, maxRolls := 2,
    maxSizeInBytes := 100, currentSize := 0, initialized := false,
    isRoll := false, fileOpen := false, curFilePath := "",
    need_day_switch := false, pending := [], pending_bytes := 0,
    has_pattern := false, pat_ops := [], pattern_raw := "",
    heal_every := 0, heal_counter := 0, writeCount := 0, openCount := 0,
    healCount := 0, events := [], reports := [] }

/-- A logger whose file is open on slot 1 with 90 bytes already
written (cap 100), self-healing disabled. -/
def testStateOpen : LogState :=
  { testState with fileOpen := true, initialized := true, currentSize := 90,
                   currentRollIndex := 1, curFilePath := "b_20250101_1.log" }

/-- One concrete accepted log call. -/
def testRec : Rec :=
  { file_short := "a.cpp", file_full := "/src/a.cpp", func := "f",
    line := 3, lv := Level.Info, msg := "hello", isNewLine := true,
    t := { tm := ⟨2025, 1, 1, 0, 0, 0⟩, ms := 7,
           time_c := "2025-01-01 00:00:00" } }

/-- A second concrete accepted log call. -/
def testRec2 : Rec :=
  { testRec with msg := "world", lv := Level.Warning, line := 4 }

/-- The configuration fields that a Light-phase ingestion can never
change: enabling, threshold, targets, renderer selection and the file
base name.  Used to transport rendering across a sequence of calls. -/
def renderCfgEq (s s' : LogState) : Prop :=
  s'.log_enabled = s.log_enabled ∧ s'.logLevel = s.logLevel ∧
  s'.outputToFile = s.outputToFile ∧ s'.outputToScreen = s.outputToScreen ∧
  s'.message_only = s.message_only ∧ s'.has_pattern = s.has_pattern ∧
  s'.pat_ops = s.pat_ops ∧ s'.name = s.name ∧ s'.baseName = s.baseName

/-! ## Basic lemmas about the traces and sizes -/

@[simp] theorem writtenData_nil : writtenData [] = [] := rfl

@[simp] theorem writtenData_append (a b : List FsEvent) :
    writtenData (a ++ b) = writtenData a ++ writtenData b := by
  simp [writtenData]

@[simp] theorem writtenData_opened (i : Nat) (m : Bool) (t : List FsEvent) :
    writtenData (FsEvent.opened i m :: t) = writtenData t := rfl

@[simp] theorem writtenData_wrote (d : String) (t : List FsEvent) :
    writtenData (FsEvent.wrote d :: t) = d :: writtenData t := rfl

@[simp] theorem writtenData_console (d : String) (t : List FsEvent) :
    writtenData (FsEvent.console d :: t) = writtenData t := rfl

@[simp] theorem sumLen_nil : sumLen [] = 0 := rfl

@[simp] theorem sumLen_cons (x : String) (L : List String) :
    sumLen (x :: L) = x.length + sumLen L := by
  simp [sumLen]

@[simp] theorem sumLen_append (a b : List String) :
    sumLen (a ++ b) = sumLen a + sumLen b := by
  simp [sumLen]

/-! ## The eviction loop -/

/-- Characterisation of the eviction loop of
`enqueuePendingLine_NoIO_UnsafeLocked_`: as long as the byte counter is
the true total, the loop keeps a suffix of the queue, the kept suffix
satisfies both caps, the counter stays the true total, and the kept
suffix is the longest suffix satisfying both caps. -/
theorem evictOldest_spec (B C : Nat) :
    ∀ (q : List String) (b : Nat), b = sumLen q →
      (evictOldest B C b q).1 = sumLen (evictOldest B C b q).2 ∧
      (evictOldest B C b q).1 ≤ B ∧
      (evictOldest B C b q).2.length ≤ C ∧
      (evictOldest B C b q).2.IsSuffix q ∧
      (∀ r : List String, r.IsSuffix q → sumLen r ≤ B → r.length ≤ C →
        r.IsSuffix (evictOldest B C b q).2) := by
  intro q
  induction q with
  | nil =>
    intro b hb
    have hb0 : b = 0 := by simpa using hb
    refine ⟨by simpa using hb, ?_, ?_, ?_, ?_⟩
    · exact hb0 ▸ Nat.zero_le B
    · exact Nat.zero_le C
    · exact List.suffix_refl []
    · intro r hr _ _
      exact hr
  | cons x rest ih =>
    intro b hb
    by_cases hcond : b > B ∨ (x :: rest).length > C
    · have hstep : evictOldest B C b (x :: rest)
          = evictOldest B C (b - x.length) rest := by
        simp only [evictOldest]
        rw [if_pos hcond]
      have hb' : b - x.length = sumLen rest := by
        subst hb
        simp [Nat.add_sub_cancel_left]
      obtain ⟨h1, h2, h3, h4, h5⟩ := ih (b - x.length) hb'
      rw [hstep]
      refine ⟨h1, h2, h3, h4.trans (List.suffix_cons x rest), ?_⟩
      intro r hr hrB hrC
      rcases List.suffix_cons_iff.mp hr with heq | hsuf
      · exfalso
        subst heq
        rcases hcond with hgt | hgt
        · have : sumLen (x :: rest) ≤ B := hrB
          omega
        · have : (x :: rest).length ≤ C := hrC
          omega
      · exact h5 r hsuf hrB hrC
    · have hstep : evictOldest B C b (x :: rest) = (b, x :: rest) := by
        simp only [evictOldest]
        rw [if_neg hcond]
      push_neg at hcond
      rw [hstep]
      exact ⟨hb, hcond.1, hcond.2, List.suffix_refl _, fun r hr _ _ => hr⟩

/-- When both caps already hold, the eviction loop is the identity. -/
theorem evictOldest_noop (B C : Nat) (q : List String) (b : Nat)
    (hB : b ≤ B) (hC : q.length ≤ C) :
    evictOldest B C b q = (b, q) := by
  cases q with
  | nil => rfl
  | cons x rest =>
    have hcond : ¬ (b > B ∨ (x :: rest).length > C) := by
      push_neg
      exact ⟨hB, hC⟩
    simp only [evictOldest]
    rw [if_neg hcond]

/-- C3 — after every enqueue, the pending buffer respects the byte cap
and the count cap; eviction removes the oldest entries first, and the
surviving buffer is exactly the longest (most recent) suffix of the
enqueued lines satisfying both caps. -/
theorem c3_buffer_dual_bound (s : LogState) (line : String)
    (hinv : s.pending_bytes = sumLen s.pending) :
    (enqueuePendingLine s line).pending_bytes ≤ PENDING_MAX_BYTES ∧
    (enqueuePendingLine s line).pending.length ≤ PENDING_MAX_COUNT ∧
    (enqueuePendingLine s line).pending_bytes
      = sumLen (enqueuePendingLine s line).pending ∧
    (enqueuePendingLine s line).pending.IsSuffix (s.pending ++ [line]) ∧
    (∀ r : List String, r.IsSuffix (s.pending ++ [line]) →
      sumLen r ≤ PENDING_MAX_BYTES → r.length ≤ PENDING_MAX_COUNT →
      r.IsSuffix (enqueuePendingLine s line).pending) := by
  have hb : s.pending_bytes + line.length = sumLen (s.pending ++ [line]) := by
    simp [hinv]
  obtain ⟨h1, h2, h3, h4, h5⟩ :=
    evictOldest_spec PENDING_MAX_BYTES PENDING_MAX_COUNT
      (s.pending ++ [line]) (s.pending_bytes + line.length) hb
  exact ⟨by simpa [enqueuePendingLine] using h1.symm ▸ h2,
    by simpa [enqueuePendingLine] using h3,
    by simpa [enqueuePendingLine] using h1,
    by simpa [enqueuePendingLine] using h4,
    by simpa [enqueuePendingLine] using h5⟩

/-- Witness for C3 at a concrete buffer state. -/
theorem c3_buffer_dual_bound_witness :
    (testState.pending_bytes = sumLen testState.pending) ∧
    (enqueuePendingLine testState "x\n").pending_bytes ≤ PENDING_MAX_BYTES ∧
    (enqueuePendingLine testState "x\n").pending.length ≤ PENDING_MAX_COUNT := by
  have h := c3_buffer_dual_bound testState "x\n" rfl
  exact ⟨rfl, h.1, h.2.1⟩

/-- C4 — a `log` call on a disabled logger, or with a level strictly
below the configured threshold, returns immediately: the state (and with
it the pending buffer, the file/console event trace and the error
reports) is exactly unchanged. -/
theorem c4_level_filtering (env : Env) (s : LogState) (r : Rec)
    (h : s.log_enabled = false ∨ r.lv.toNat < s.logLevel.toNat) :
    logStep env s r = s := by
  simp only [logStep]
  rw [if_pos h]

/-- Witness for C4: an Info record against an Error threshold. -/
theorem c4_level_filtering_witness :
    (Level.Info.toNat < Level.Error.toNat) ∧
    logStep testEnvOk { testState with logLevel := Level.Error } testRec
      = { testState with logLevel := Level.Error } := by
  refine ⟨by decide, ?_⟩
  exact c4_level_filtering testEnvOk _ testRec (Or.inr (by decide))

set_option maxRecDepth 20000 in
/-- C7 — the empty template compiles to "no program" (`false`, nothing
emitted), `setPattern ""` therefore publishes no pattern, and with no
pattern (and message-only off) every rendered line is the default fixed
prefix followed by the message: second-precision timestamp, a dot, the
3-digit zero-padded milliseconds, the level name, `[file:line]`, then
the message.  `pad3` really is 3 digits for every ms value below 1000. -/
theorem c7_empty_template_default_layout :
    compilePattern "" = (false, []) ∧
    (∀ s : LogState, (setPattern s "").has_pattern = false ∧
      (setPattern s "").pat_ops = []) ∧
    (∀ (env : Env) (s : LogState) (t : TimeInfo) (lv : Level)
        (fs ff fn : String) (line : Int) (msg : String),
      s.message_only = false → s.has_pattern = false →
      formatLine env s t lv fs ff fn line msg
        = t.time_c ++ "." ++ pad3 t.ms ++ " " ++ levelToStringC lv ++ " ["
          ++ fs ++ ":" ++ toString line ++ "] " ++ msg) ∧
    (∀ ms : Nat, ms < 1000 → (pad3 ms).length = 3) := by
  refine ⟨rfl, ?_, ?_, ?_⟩
  · intro s
    exact ⟨rfl, rfl⟩
  · intro env s t lv fs ff fn line msg hmo hhp
    simp [formatLine, hmo, hhp, buildPrefixStr]
  · decide

/-- Witness for C7 at a concrete context (hypotheses `message_only =
false`, `has_pattern = false`, `ms < 1000` discharged concretely). -/
theorem c7_empty_template_default_layout_witness :
    (setPattern testState "").has_pattern = false ∧
    formatLine testEnvOk testState testRec.t Level.Info "a.cpp" "/src/a.cpp"
        "f" 3 "hello"
      = "2025-01-01 00:00:00.007 INFO [a.cpp:3] hello" ∧
    (pad3 7).length = 3 := by
  refine ⟨(c7_empty_template_default_layout.2.1 testState).1, ?_, ?_⟩
  · rw [c7_empty_template_default_layout.2.2.1 testEnvOk testState testRec.t
      Level.Info "a.cpp" "/src/a.cpp" "f" 3 "hello" rfl rfl]
    rfl
  · exact c7_empty_template_default_layout.2.2.2 7 (by decide)

/-- C8 — `reportError_` routing: when the thread-local in-logging flag
is set the diagnostic goes to the fallback stream and the user handler
is not invoked; otherwise the user handler is invoked exactly when one
is set (fallback stream otherwise); and in every case the call returns
normally — an exception thrown by the handler never propagates. -/
theorem c8_report_error_routing (f : Bool)
    (h : Option (String → Except Unit Unit)) (m : String) :
    ∃ o : ReportOutcome, reportError f h m = Except.ok o ∧
      (o.sink = ErrSink.fallbackStream ↔ (f = true ∨ h = none)) ∧
      (o.handlerCalled = true ↔ (f = false ∧ h ≠ none)) := by
  cases f with
  | true =>
    refine ⟨⟨ErrSink.fallbackStream, false⟩, rfl, by simp, by simp⟩
  | false =>
    cases h with
    | none =>
      refine ⟨⟨ErrSink.fallbackStream, false⟩, rfl, by simp, by simp⟩
    | some hh =>
      refine ⟨⟨ErrSink.userHandler, true⟩, ?_, by simp, by simp⟩
      simp only [reportError]
      cases hres : hh ("MLLOG INTERNAL: " ++ m) with
      | ok _ => simp [hres]
      | error _ => simp [hres]

/-- C9 — when file output is disabled, both `promoteToFull` and the
automatic promotion transition to Full and clear the whole pending
buffer, changing nothing else: in particular no file or console event is
emitted, so the buffered lines are silently discarded. -/
theorem c9_promotion_discards_when_file_disabled :
    (∀ (env : Env) (s : LogState), s.outputToFile = false →
      ¬ s.phase = Phase.Full →
      promoteToFull env s
        = { s with phase := Phase.Full, pending := [], pending_bytes := 0 }) ∧
    (∀ (env : Env) (s : LogState), s.outputToFile = false →
      s.phase = Phase.Light →
      tryAutoPromote env s
        = { s with phase := Phase.Full, pending := [], pending_bytes := 0 }) := by
  constructor
  · intro env s hout hph
    simp only [promoteToFull]
    rw [if_neg hph, if_pos hout]
  · intro env s hout hph
    simp only [tryAutoPromote]
    rw [if_neg (by simp [hph]), if_pos hout]

/-- Witness for C9: a Light-phase logger with file output off and a
non-empty pending buffer; its buffered line ends up nowhere. -/
theorem c9_promotion_discards_when_file_disabled_witness :
    (promoteToFull testEnvOk
        { testState with outputToFile := false, pending := ["x\n"],
                         pending_bytes := 2 }).pending = [] ∧
    (promoteToFull testEnvOk
        { testState with outputToFile := false, pending := ["x\n"],
                         pending_bytes := 2 }).events = [] ∧
    (tryAutoPromote testEnvOk
        { testState with outputToFile := false, pending := ["x\n"],
                         pending_bytes := 2 }).phase = Phase.Full := by
  have h1 := c9_promotion_discards_when_file_disabled.1 testEnvOk
    { testState with outputToFile := false, pending := ["x\n"], pending_bytes := 2 }
    rfl (by decide)
  have h2 := c9_promotion_discards_when_file_disabled.2 testEnvOk
    { testState with outputToFile := false, pending := ["x\n"], pending_bytes := 2 }
    rfl rfl
  rw [h1, h2]
  exact ⟨rfl, rfl, rfl⟩

/-! ## Rotation: behaviour of `rollFiles_` on a successful open -/

/-- What one successful `rollFiles_` call does, as a single state
equation: the handle is open on the new slot, the roll index advanced
(wrapping), the wrap flag latched, the slot path recorded, the size
resynchronised from the file end, and an `opened` event emitted whose
truncate mode is exactly the wrap flag. -/
theorem rollFiles_ok (env : Env) (s : LogState) (hb : ¬ s.baseName = "")
    (ho : env.openOk s.openCount = true) :
    rollFiles env s =
      { s with fileOpen := true,
               currentRollIndex := rollIdxNext s,
               isRoll := rollWrapFlag s,
               curFilePath := s.baseFullNameWithDateAndTime ++ "_"
                 ++ toString (rollIdxNext s) ++ ".log",
               openCount := s.openCount + 1,
               currentSize := env.openFileSize s.openCount,
               heal_counter := 0,
               events := s.events
                 ++ [FsEvent.opened (rollIdxNext s) (rollWrapFlag s)] } := by
  simp only [rollFiles, rollIdxNext, rollWrapFlag]
  rw [if_neg hb]
  simp [ho]

/-- The fields of `rollFiles_` output that the replay arguments rely on. -/
theorem rollFiles_fields (env : Env) (s : LogState) (hb : ¬ s.baseName = "")
    (ho : env.openOk s.openCount = true) :
    (rollFiles env s).fileOpen = true ∧
    (rollFiles env s).baseName = s.baseName ∧
    (rollFiles env s).phase = s.phase ∧
    (rollFiles env s).pending = s.pending ∧
    (rollFiles env s).pending_bytes = s.pending_bytes ∧
    (rollFiles env s).reports = s.reports ∧
    (rollFiles env s).outputToFile = s.outputToFile ∧
    (rollFiles env s).writeCount = s.writeCount ∧
    (rollFiles env s).initialized = s.initialized ∧
    writtenData (rollFiles env s).events = writtenData s.events := by
  rw [rollFiles_ok env s hb ho]
  simp

/-! ## Replay: success and mid-replay failure -/

/-- One successful iteration of the replay loop: the head line reaches
the file and the loop continues on the tail from a state that preserves
everything the remaining iterations (and the caller) depend on. -/
theorem replay_step_ok (env : Env) (fr : Option String) (line : String)
    (rest : List String) (s : LogState) (hfo : s.fileOpen = true)
    (hb : ¬ s.baseName = "") (hw1 : env.writeOk s.writeCount = true)
    (ho : ∀ k, env.openOk k = true) :
    ∃ s' : LogState,
      replayPending env fr (line :: rest) s = replayPending env fr rest s' ∧
      s'.fileOpen = true ∧ s'.baseName = s.baseName ∧ s'.phase = s.phase ∧
      s'.pending = s.pending ∧ s'.pending_bytes = s.pending_bytes ∧
      s'.reports = s.reports ∧ s'.outputToFile = s.outputToFile ∧
      s'.writeCount = s.writeCount + 1 ∧
      writtenData s'.events = writtenData s.events ++ [line] := by
  simp only [replayPending]
  by_cases hc1 : s.currentSize > 0 ∧ s.currentSize + line.length > s.maxSizeInBytes
  · rw [if_pos hc1, rollFiles_ok env s hb (ho s.openCount)]
    dsimp only
    rw [hw1]
    simp only [Bool.true_and, if_true]
    by_cases hc2 : env.openFileSize s.openCount + line.length ≥ s.maxSizeInBytes
    · rw [if_pos hc2]
      refine ⟨_, rfl, ?_⟩
      rw [rollFiles_ok]
      · simp
      · simpa using hb
      · exact ho _
    · rw [if_neg hc2]
      exact ⟨_, rfl, by simp⟩
  · rw [if_neg hc1]
    rw [hfo, hw1]
    simp only [Bool.true_and, if_true]
    by_cases hc2 : s.currentSize + line.length ≥ s.maxSizeInBytes
    · rw [if_pos hc2]
      refine ⟨_, rfl, ?_⟩
      rw [rollFiles_ok]
      · simp
      · simpa using hb
      · exact ho _
    · rw [if_neg hc2]
      exact ⟨_, rfl, by simp [hfo]⟩

/-- A fully successful replay: every line reaches the file in order, the
buffer is cleared, the phase becomes Full, and no error is reported. -/
theorem replay_ok (env : Env) (hw : ∀ k, env.writeOk k = true)
    (ho : ∀ k, env.openOk k = true) (fr : Option String) :
    ∀ (L : List String) (s : LogState), s.fileOpen = true → ¬ s.baseName = "" →
      (replayPending env fr L s).phase = Phase.Full ∧
      (replayPending env fr L s).pending = [] ∧
      (replayPending env fr L s).pending_bytes = 0 ∧
      writtenData (replayPending env fr L s).events = writtenData s.events ++ L ∧
      (replayPending env fr L s).reports = s.reports := by
  intro L
  induction L with
  | nil =>
    intro s _ _
    exact ⟨rfl, rfl, rfl, by simp [replayPending], rfl⟩
  | cons line rest ih =>
    intro s hfo hb
    obtain ⟨s', heq, hfo', hbn', hph', hpd', hpb', hrp', hot', hwc', hev'⟩ :=
      replay_step_ok env fr line rest s hfo hb (hw _) ho
    rw [heq]
    obtain ⟨r1, r2, r3, r4, r5⟩ := ih s' hfo' (by rw [hbn']; exact hb)
    refine ⟨r1, r2, r3, ?_, by rw [r5, hrp']⟩
    rw [r4, hev']
    simp

/-- The iteration of the replay loop at which the write fails: the
stream goes bad, the loop stops, the handle is closed and
deinitialised, the optional failure report is appended, and — crucially
— the pending buffer is left exactly as it was. -/
theorem replay_step_fail (env : Env) (fr : Option String) (line : String)
    (rest : List String) (s : LogState) (hfo : s.fileOpen = true)
    (hb : ¬ s.baseName = "") (hw1 : env.writeOk s.writeCount = false)
    (ho : ∀ k, env.openOk k = true) :
    (replayPending env fr (line :: rest) s).pending = s.pending ∧
    (replayPending env fr (line :: rest) s).pending_bytes = s.pending_bytes ∧
    (replayPending env fr (line :: rest) s).phase = s.phase ∧
    (replayPending env fr (line :: rest) s).fileOpen = false ∧
    (replayPending env fr (line :: rest) s).initialized = false ∧
    (replayPending env fr (line :: rest) s).reports = s.reports ++ fr.toList ∧
    writtenData (replayPending env fr (line :: rest) s).events
      = writtenData s.events ∧
    (replayPending env fr (line :: rest) s).baseName = s.baseName ∧
    (replayPending env fr (line :: rest) s).outputToFile = s.outputToFile := by
  simp only [replayPending]
  by_cases hc1 : s.currentSize > 0 ∧ s.currentSize + line.length > s.maxSizeInBytes
  · rw [if_pos hc1, rollFiles_ok env s hb (ho s.openCount)]
    dsimp only
    rw [hw1]
    cases fr with
    | none => simp [report]
    | some m => simp [report]
  · rw [if_neg hc1, hfo, hw1]
    cases fr with
    | none => simp [report]
    | some m => simp [report]

/-- A replay whose (k+1)-st write fails: the first k lines reach the
file, the loop then stops with the pending buffer untouched, the phase
unchanged, the handle invalidated and the optional failure report
appended. -/
theorem replay_fail (env : Env) (ho : ∀ k, env.openOk k = true)
    (fr : Option String) :
    ∀ (L : List String) (k : Nat) (s : LogState), s.fileOpen = true →
      ¬ s.baseName = "" →
      (∀ j, j < k → env.writeOk (s.writeCount + j) = true) →
      env.writeOk (s.writeCount + k) = false → k < L.length →
      (replayPending env fr L s).pending = s.pending ∧
      (replayPending env fr L s).pending_bytes = s.pending_bytes ∧
      (replayPending env fr L s).phase = s.phase ∧
      (replayPending env fr L s).fileOpen = false ∧
      (replayPending env fr L s).initialized = false ∧
      (replayPending env fr L s).reports = s.reports ++ fr.toList ∧
      writtenData (replayPending env fr L s).events
        = writtenData s.events ++ L.take k ∧
      (replayPending env fr L s).baseName = s.baseName ∧
      (replayPending env fr L s).outputToFile = s.outputToFile := by
  intro L
  induction L with
  | nil =>
    intro k s _ _ _ _ hklen
    exact absurd hklen (by simp)
  | cons line rest ih =>
    intro k s hfo hb hj hk hklen
    cases k with
    | zero =>
      have hw1 : env.writeOk s.writeCount = false := by simpa using hk
      have h := replay_step_fail env fr line rest s hfo hb hw1 ho
      simpa using h
    | succ k =>
      have hw1 : env.writeOk s.writeCount = true := by
        simpa using hj 0 (Nat.succ_pos k)
      obtain ⟨s', heq, hfo', hbn', hph', hpd', hpb', hrp', hot', hwc', hev'⟩ :=
        replay_step_ok env fr line rest s hfo hb hw1 ho
      rw [heq]
      have hj' : ∀ j, j < k → env.writeOk (s'.writeCount + j) = true := by
        intro j hjk
        rw [hwc']
        have harith : s.writeCount + 1 + j = s.writeCount + (j + 1) := by omega
        rw [harith]
        exact hj (j + 1) (Nat.succ_lt_succ hjk)
      have hk' : env.writeOk (s'.writeCount + k) = false := by
        rw [hwc']
        have harith : s.writeCount + 1 + k = s.writeCount + (k + 1) := by omega
        rw [harith]
        exact hk
      have hlen' : k < rest.length := Nat.lt_of_succ_lt_succ (by simpa using hklen)
      obtain ⟨r1, r2, r3, r4, r5, r6, r7, r8, r9⟩ :=
        ih k s' hfo' (by rw [hbn']; exact hb) hj' hk' hlen'
      refine ⟨by rw [r1, hpd'], by rw [r2, hpb'], by rw [r3, hph'], r4, r5,
        by rw [r6, hrp'], ?_, by rw [r8, hbn'], by rw [r9, hot']⟩
      rw [r7, hev']
      simp

/-- A promotion under an environment in which every open and every write
succeed: it flushes the whole pending buffer to the file in order,
clears it, moves to Full and reports nothing. -/
theorem promote_success (env : Env) (hw : ∀ k, env.writeOk k = true)
    (ho : ∀ k, env.openOk k = true) (s : LogState)
    (hph : ¬ s.phase = Phase.Full) (hout : s.outputToFile = true)
    (hb : ¬ s.baseName = "") :
    (promoteToFull env s).phase = Phase.Full ∧
    (promoteToFull env s).pending = [] ∧
    (promoteToFull env s).pending_bytes = 0 ∧
    writtenData (promoteToFull env s).events
      = writtenData s.events ++ s.pending ∧
    (promoteToFull env s).reports = s.reports := by
  have h := replay_ok env hw ho
    (some "promoteToFull(): flush pending failed; keeping pending.")
  obtain ⟨hf1, hf2, hf3, hf4, hf5, hf6, hf7, hf8, hf9, hf10⟩ :=
    rollFiles_fields env s hb (ho s.openCount)
  simp only [promoteToFull]
  rw [if_neg hph, if_neg (by simp [hout])]
  by_cases hinit : s.initialized = false
  · rw [if_pos hinit]
    rw [if_neg (show ¬ ({ rollFiles env s with initialized := true }
        : LogState).fileOpen = false by simp [hf1])]
    have hfoU : ({ rollFiles env s with initialized := true }
        : LogState).fileOpen = true := by simpa using hf1
    have hbU : ¬ ({ rollFiles env s with initialized := true }
        : LogState).baseName = "" := by simpa [hf2] using hb
    obtain ⟨p1, p2, p3, p4, p5⟩ := h _ _ hfoU hbU
    refine ⟨p1, p2, p3, ?_, by rw [p5]; simpa using hf6⟩
    rw [p4]
    simp [hf4, hf10]
  · rw [if_neg hinit]
    by_cases hfob : s.fileOpen = false
    · rw [if_pos hfob]
      rw [if_neg (show ¬ (rollFiles env s).fileOpen = false by simp [hf1])]
      obtain ⟨p1, p2, p3, p4, p5⟩ := h _ _ hf1 (by rw [hf2]; exact hb)
      refine ⟨p1, p2, p3, ?_, by rw [p5]; exact hf6⟩
      rw [p4]
      simp [hf4, hf10]
    · rw [if_neg hfob, if_neg hfob]
      have hfo : s.fileOpen = true := by
        revert hfob
        cases s.fileOpen <;> simp
      obtain ⟨p1, p2, p3, p4, p5⟩ := h s.pending s hfo hb
      exact ⟨p1, p2, p3, p4, p5⟩

/-! ## Light-phase ingestion while the filesystem is not ready -/

/-- When the handle is closed and every open fails, `rollFiles_` leaves
the handle closed (reporting if it actually tried) and touches neither
the buffer, the phase, the durable trace nor the configuration. -/
theorem rollFiles_noopen_fields (env : Env) (s : LogState)
    (ho : ∀ k, env.openOk k = false) (hfo : s.fileOpen = false) :
    (rollFiles env s).fileOpen = false ∧
    (rollFiles env s).pending = s.pending ∧
    (rollFiles env s).pending_bytes = s.pending_bytes ∧
    (rollFiles env s).phase = s.phase ∧
    writtenData (rollFiles env s).events = writtenData s.events ∧
    renderCfgEq s (rollFiles env s) := by
  simp only [rollFiles]
  by_cases hbn : s.baseName = ""
  · rw [if_pos hbn]
    exact ⟨hfo, rfl, rfl, rfl, rfl, rfl, rfl, rfl, rfl, rfl, rfl, rfl, rfl, rfl⟩
  · rw [if_neg hbn]
    rw [ho s.openCount]
    simp [report, renderCfgEq]

/-- One accepted Light-phase `log` call while the filesystem refuses to
open files: the rendered line is appended to the pending buffer (no
eviction under the cap hypotheses), the phase stays Light, nothing is
written to the file, and the configuration is unchanged. -/
theorem logStep_light (env : Env) (s : LogState) (r : Rec)
    (ho : ∀ k, env.openOk k = false)
    (hph : s.phase = Phase.Light) (hen : s.log_enabled = true)
    (hlv : s.logLevel.toNat ≤ r.lv.toNat) (hout : s.outputToFile = true)
    (hfo : s.fileOpen = false)
    (hbytes : s.pending_bytes + (renderedLine env s r).length ≤ PENDING_MAX_BYTES)
    (hcnt : s.pending.length + 1 ≤ PENDING_MAX_COUNT) :
    (logStep env s r).pending = s.pending ++ [renderedLine env s r] ∧
    (logStep env s r).pending_bytes
      = s.pending_bytes + (renderedLine env s r).length ∧
    (logStep env s r).phase = Phase.Light ∧
    (logStep env s r).fileOpen = false ∧
    writtenData (logStep env s r).events = writtenData s.events ∧
    renderCfgEq s (logStep env s r) := by
  simp only [logStep]
  rw [if_neg (by simp [hen, Nat.not_lt.mpr hlv])]
  rw [if_pos (by simp [hph])]
  by_cases hscr : s.outputToScreen = true
  case pos =>
    rw [if_pos hscr]
    simp only [enqueuePendingLine]
    try dsimp only
    rw [evictOldest_noop _ _ _ _ hbytes (by simpa using hcnt)]
    try dsimp only
    simp only [tryAutoPromote]
    rw [if_neg (by simp [hph])]
    rw [if_neg (by simp [hout])]
    rw [if_pos (Or.inr (by simp [hfo]))]
    obtain ⟨g1, g2, g3, g4, g5, g6⟩ :=
      rollFiles_noopen_fields env
        { s with events := s.events ++ [FsEvent.console (renderedLine env s r)],
                 pending_bytes := s.pending_bytes + (renderedLine env s r).length,
                 pending := s.pending ++ [renderedLine env s r] }
        ho (by simpa using hfo)
    rw [if_pos (by simpa using g1)]
    obtain ⟨c1, c2, c3, c4, c5, c6, c7, c8, c9⟩ := g6
    refine ⟨by simpa using g2, by simpa using g3, by simpa [hph] using g4,
      by simpa using g1, by simpa using g5, ?_⟩
    exact ⟨by simpa using c1, by simpa using c2, by simpa using c3,
      by simpa using c4, by simpa using c5, by simpa using c6,
      by simpa using c7, by simpa using c8, by simpa using c9⟩
  case neg =>
    rw [if_neg hscr]
    simp only [enqueuePendingLine]
    rw [evictOldest_noop _ _ _ _ hbytes (by simpa using hcnt)]
    try dsimp only
    simp only [tryAutoPromote]
    rw [if_neg (by simp [hph])]
    rw [if_neg (by simp [hout])]
    rw [if_pos (Or.inr (by simp [hfo]))]
    obtain ⟨g1, g2, g3, g4, g5, g6⟩ :=
      rollFiles_noopen_fields env
        { s with pending_bytes := s.pending_bytes + (renderedLine env s r).length,
                 pending := s.pending ++ [renderedLine env s r] }
        ho (by simpa using hfo)
    rw [if_pos (by simpa using g1)]
    obtain ⟨c1, c2, c3, c4, c5, c6, c7, c8, c9⟩ := g6
    refine ⟨by simpa using g2, by simpa using g3, by simpa [hph] using g4,
      by simpa using g1, by simpa using g5, ?_⟩
    exact ⟨by simpa using c1, by simpa using c2, by simpa using c3,
      by simpa using c4, by simpa using c5, by simpa using c6,
      by simpa using c7, by simpa using c8, by simpa using c9⟩

/-- Relation `renderCfgEq` composes. -/
theorem renderCfgEq_trans {a b c : LogState} (h1 : renderCfgEq a b)
    (h2 : renderCfgEq b c) : renderCfgEq a c := by
  obtain ⟨a1, a2, a3, a4, a5, a6, a7, a8, a9⟩ := h1
  obtain ⟨b1, b2, b3, b4, b5, b6, b7, b8, b9⟩ := h2
  exact ⟨b1.trans a1, b2.trans a2, b3.trans a3, b4.trans a4, b5.trans a5,
    b6.trans a6, b7.trans a7, b8.trans a8, b9.trans a9⟩

/-- The rendered line only depends on the configuration fields, so it is
stable along a Light-phase run. -/
theorem renderedLine_congr (env : Env) {s s' : LogState}
    (h : renderCfgEq s s') (r : Rec) :
    renderedLine env s' r = renderedLine env s r := by
  obtain ⟨_, _, _, _, h5, h6, h7, h8, _⟩ := h
  simp only [renderedLine, formatLine, h5, h6, h7, h8]

/-- Mapping `renderedAll` is likewise configuration-stable. -/
theorem renderedAll_congr (env : Env) {s s' : LogState}
    (h : renderCfgEq s s') (recs : List Rec) :
    renderedAll env s' recs = renderedAll env s recs := by
  simp only [renderedAll]
  rw [show renderedLine env s' = renderedLine env s from
    funext fun r => renderedLine_congr env h r]

/-- A whole Light-phase run while every open fails: the accepted records
are rendered and buffered in call order, nothing reaches the file, the
phase stays Light and the configuration is unchanged. -/
theorem ingest_light (env : Env) (ho : ∀ k, env.openOk k = false) :
    ∀ (recs : List Rec) (s : LogState),
      s.phase = Phase.Light → s.log_enabled = true → s.outputToFile = true →
      s.fileOpen = false →
      (∀ r ∈ recs, s.logLevel.toNat ≤ r.lv.toNat) →
      s.pending_bytes + sumLen (renderedAll env s recs) ≤ PENDING_MAX_BYTES →
      s.pending.length + recs.length ≤ PENDING_MAX_COUNT →
      (ingestAll env recs s).pending = s.pending ++ renderedAll env s recs ∧
      (ingestAll env recs s).pending_bytes
        = s.pending_bytes + sumLen (renderedAll env s recs) ∧
      (ingestAll env recs s).phase = Phase.Light ∧
      (ingestAll env recs s).fileOpen = false ∧
      writtenData (ingestAll env recs s).events = writtenData s.events ∧
      renderCfgEq s (ingestAll env recs s) := by
  intro recs
  induction recs with
  | nil =>
    intro s h1 _ _ h4 _ _ _
    exact ⟨by simp [ingestAll, renderedAll], by simp [ingestAll, renderedAll],
      by simpa [ingestAll] using h1, by simpa [ingestAll] using h4,
      by simp [ingestAll], rfl, rfl, rfl, rfl, rfl, rfl, rfl, rfl, rfl⟩
  | cons r rest ih =>
    intro s h1 h2 h3 h4 hlv hbytes hcnt
    have hexp : renderedAll env s (r :: rest)
        = renderedLine env s r :: renderedAll env s rest := by
      simp [renderedAll]
    rw [hexp] at hbytes
    have hbytes1 : s.pending_bytes + (renderedLine env s r).length
        ≤ PENDING_MAX_BYTES := by
      rw [sumLen_cons] at hbytes
      omega
    have hcnt1 : s.pending.length + 1 ≤ PENDING_MAX_COUNT := by
      simp only [List.length_cons] at hcnt
      omega
    obtain ⟨p1, p2, p3, p4, p5, p6⟩ :=
      logStep_light env s r ho h1 h2 (hlv r (List.mem_cons_self r rest)) h3 h4
        hbytes1 hcnt1
    obtain ⟨e1, e2, e3, e4, e5, e6, e7, e8, e9⟩ := p6
    have hren : renderedAll env (logStep env s r) rest
        = renderedAll env s rest :=
      renderedAll_congr env ⟨e1, e2, e3, e4, e5, e6, e7, e8, e9⟩ rest
    have hstep : ingestAll env (r :: rest) s
        = ingestAll env rest (logStep env s r) := rfl
    obtain ⟨q1, q2, q3, q4, q5, q6⟩ :=
      ih (logStep env s r) p3 (by rw [e1]; exact h2) (by rw [e3]; exact h3) p4
        (fun r' hr' => by rw [e2]; exact hlv r' (List.mem_cons_of_mem _ hr'))
        (by rw [p2, hren]; rw [sumLen_cons] at hbytes; omega)
        (by rw [p1]; simp only [List.length_append, List.length_cons] at hcnt ⊢
            simp only [List.length_cons, List.length_nil]
            omega)
    rw [hstep]
    refine ⟨?_, ?_, q3, q4, by rw [q5, p5],
      renderCfgEq_trans ⟨e1, e2, e3, e4, e5, e6, e7, e8, e9⟩ q6⟩
    · rw [q1, p1, hren, hexp]
      simp
    · rw [q2, p2, hren, hexp, sumLen_cons]
      omega

/-- C1 — records accepted during Light phase (while the filesystem is
not yet ready, so automatic promotion cannot fire), whose rendered lines
stay within both buffer caps, are all written to the file by a
succeeding `promoteToFull()`, in the original call order; afterwards the
pending buffer is empty and the phase is Full. -/
theorem c1_no_data_loss_on_promotion (envI envP : Env) (s : LogState)
    (recs : List Rec)
    (hoI : ∀ k, envI.openOk k = false)
    (hwP : ∀ k, envP.writeOk k = true) (hoP : ∀ k, envP.openOk k = true)
    (hph : s.phase = Phase.Light) (hen : s.log_enabled = true)
    (hout : s.outputToFile = true) (hfo : s.fileOpen = false)
    (hb : ¬ s.baseName = "")
    (hlv : ∀ r ∈ recs, s.logLevel.toNat ≤ r.lv.toNat)
    (hbytes : s.pending_bytes + sumLen (renderedAll envI s recs)
      ≤ PENDING_MAX_BYTES)
    (hcnt : s.pending.length + recs.length ≤ PENDING_MAX_COUNT) :
    writtenData (promoteToFull envP (ingestAll envI recs s)).events
      = writtenData s.events ++ (s.pending ++ renderedAll envI s recs) ∧
    (promoteToFull envP (ingestAll envI recs s)).pending = [] ∧
    (promoteToFull envP (ingestAll envI recs s)).phase = Phase.Full := by
  obtain ⟨i1, i2, i3, i4, i5, i6⟩ :=
    ingest_light envI hoI recs s hph hen hout hfo hlv hbytes hcnt
  obtain ⟨e1, e2, e3, e4, e5, e6, e7, e8, e9⟩ := i6
  obtain ⟨m1, m2, m3, m4, m5⟩ :=
    promote_success envP hwP hoP (ingestAll envI recs s)
      (by rw [i3]; simp) (by rw [e3]; exact hout) (by rw [e9]; exact hb)
  exact ⟨by rw [m4, i1, i5], m2, m1⟩

/-- Witness for C1: two records buffered while opens fail, then a
successful promotion; both lines land in the file in order. -/
theorem c1_no_data_loss_on_promotion_witness :
    (promoteToFull testEnvOk
        (ingestAll testEnvNoOpen [testRec, testRec2] testState)).phase
      = Phase.Full ∧
    (promoteToFull testEnvOk
        (ingestAll testEnvNoOpen [testRec, testRec2] testState)).pending = [] ∧
    writtenData (promoteToFull testEnvOk
        (ingestAll testEnvNoOpen [testRec, testRec2] testState)).events
      = ["2025-01-01 00:00:00.007 INFO [a.cpp:3] hello\n",
         "2025-01-01 00:00:00.007 WARNING [a.cpp:4] world\n"] := by
  have h := c1_no_data_loss_on_promotion testEnvNoOpen testEnvOk testState
    [testRec, testRec2] (fun _ => rfl) (fun _ => rfl) (fun _ => rfl)
    rfl rfl rfl rfl (by decide) (by decide) (by decide) (by decide)
  refine ⟨h.2.2, h.2.1, ?_⟩
  rw [h.1]
  rfl

/-- A promotion attempt whose (k+1)-st replay write fails, seen at the
`promoteToFull` level: buffer intact, phase unchanged, handle
invalidated, one failure report appended, and exactly the first k lines
written. -/
theorem promote_fail (env : Env) (ho : ∀ k', env.openOk k' = true)
    (s : LogState) (k : Nat)
    (hph : ¬ s.phase = Phase.Full) (hout : s.outputToFile = true)
    (hb : ¬ s.baseName = "") (hinit : s.initialized = true)
    (hfo : s.fileOpen = true)
    (hj : ∀ j, j < k → env.writeOk (s.writeCount + j) = true)
    (hk : env.writeOk (s.writeCount + k) = false)
    (hklen : k < s.pending.length) :
    (promoteToFull env s).pending = s.pending ∧
    (promoteToFull env s).pending_bytes = s.pending_bytes ∧
    (promoteToFull env s).phase = s.phase ∧
    (promoteToFull env s).fileOpen = false ∧
    (promoteToFull env s).initialized = false ∧
    (promoteToFull env s).reports = s.reports
      ++ ["promoteToFull(): flush pending failed; keeping pending."] ∧
    writtenData (promoteToFull env s).events
      = writtenData s.events ++ s.pending.take k ∧
    (promoteToFull env s).baseName = s.baseName ∧
    (promoteToFull env s).outputToFile = s.outputToFile := by
  simp only [promoteToFull]
  rw [if_neg hph]
  rw [if_neg (show ¬ s.outputToFile = false by simp [hout])]
  rw [if_neg (show ¬ s.initialized = false by simp [hinit])]
  rw [if_neg (show ¬ s.fileOpen = false by simp [hfo])]
  rw [if_neg (show ¬ s.fileOpen = false by simp [hfo])]
  have h := replay_fail env ho
    (some "promoteToFull(): flush pending failed; keeping pending.")
    s.pending k s hfo hb hj hk hklen
  simpa using h

/-- C2 — if a write fails during the replay performed by
`promoteToFull()`, the pending buffer is not cleared, the phase is still
Light, the failure is reported through the error-reporting channel, and
the same promotion succeeds when retried under a healthy environment. -/
theorem c2_promotion_failure_keeps_buffer (env env2 : Env) (s : LogState)
    (k : Nat) (ho : ∀ k', env.openOk k' = true)
    (hph : s.phase = Phase.Light) (hout : s.outputToFile = true)
    (hb : ¬ s.baseName = "") (hinit : s.initialized = true)
    (hfo : s.fileOpen = true)
    (hj : ∀ j, j < k → env.writeOk (s.writeCount + j) = true)
    (hk : env.writeOk (s.writeCount + k) = false)
    (hklen : k < s.pending.length)
    (hw2 : ∀ k', env2.writeOk k' = true) (ho2 : ∀ k', env2.openOk k' = true) :
    (promoteToFull env s).pending = s.pending ∧
    (promoteToFull env s).pending_bytes = s.pending_bytes ∧
    (promoteToFull env s).phase = Phase.Light ∧
    (promoteToFull env s).reports = s.reports
      ++ ["promoteToFull(): flush pending failed; keeping pending."] ∧
    (promoteToFull env2 (promoteToFull env s)).phase = Phase.Full ∧
    (promoteToFull env2 (promoteToFull env s)).pending = [] := by
  obtain ⟨f1, f2, f3, f4, f5, f6, f7, f8, f9⟩ :=
    promote_fail env ho s k (by simp [hph]) hout hb hinit hfo hj hk hklen
  have hs' := promote_success env2 hw2 ho2 (promoteToFull env s)
    (by rw [f3, hph]; simp) (by rw [f9]; exact hout) (by rw [f8]; exact hb)
  exact ⟨f1, f2, by rw [f3, hph], f6, hs'.1, hs'.2.1⟩

/-- Witness for C2: two buffered lines, the second write of the first
attempt fails, the retry under a healthy environment flushes both. -/
theorem c2_promotion_failure_keeps_buffer_witness :
    (promoteToFull testEnvWrite1Fails
        { testState with initialized := true, fileOpen := true,
                         pending := ["a\n", "b\n"], pending_bytes := 4,
                         curFilePath := "b_20250101_1.log",
                         currentRollIndex := 1 }).pending = ["a\n", "b\n"] ∧
    (promoteToFull testEnvWrite1Fails
        { testState with initialized := true, fileOpen := true,
                         pending := ["a\n", "b\n"], pending_bytes := 4,
                         curFilePath := "b_20250101_1.log",
                         currentRollIndex := 1 }).phase = Phase.Light ∧
    (promoteToFull testEnvOk (promoteToFull testEnvWrite1Fails
        { testState with initialized := true, fileOpen := true,
                         pending := ["a\n", "b\n"], pending_bytes := 4,
                         curFilePath := "b_20250101_1.log",
                         currentRollIndex := 1 })).phase = Phase.Full := by
  have h := c2_promotion_failure_keeps_buffer testEnvWrite1Fails testEnvOk
    { testState with initialized := true, fileOpen := true,
                     pending := ["a\n", "b\n"], pending_bytes := 4,
                     curFilePath := "b_20250101_1.log",
                     currentRollIndex := 1 }
    1 (fun _ => rfl) rfl rfl (by decide) rfl rfl
    (by decide) (by decide) (by decide) (fun _ => rfl) (fun _ => rfl)
  exact ⟨h.1, h.2.2.1, h.2.2.2.2.1⟩

/-- C6 — `promoteToFull()` is idempotent: with the phase already Full it
returns the state unchanged, and immediately after a successful
promotion a second call is exactly a no-op (so nothing is re-replayed). -/
theorem c6_idempotent_promotion :
    (∀ (env : Env) (s : LogState), s.phase = Phase.Full →
      promoteToFull env s = s) ∧
    (∀ (env env2 : Env) (s : LogState),
      (∀ k, env.writeOk k = true) → (∀ k, env.openOk k = true) →
      ¬ s.phase = Phase.Full → s.outputToFile = true → ¬ s.baseName = "" →
      promoteToFull env2 (promoteToFull env s) = promoteToFull env s) := by
  have part1 : ∀ (env : Env) (s : LogState), s.phase = Phase.Full →
      promoteToFull env s = s := by
    intro env s h
    simp only [promoteToFull]
    rw [if_pos h]
  refine ⟨part1, ?_⟩
  intro env env2 s hw ho hph hout hb
  exact part1 env2 _ (promote_success env hw ho s hph hout hb).1

/-- Witness for C6: a Full-phase no-op and a concrete
promote-then-promote chain. -/
theorem c6_idempotent_promotion_witness :
    promoteToFull testEnvOk { testState with phase := Phase.Full }
      = { testState with phase := Phase.Full } ∧
    promoteToFull testEnvOk (promoteToFull testEnvOk
        { testState with pending := ["x\n"], pending_bytes := 2 })
      = promoteToFull testEnvOk
        { testState with pending := ["x\n"], pending_bytes := 2 } := by
  refine ⟨c6_idempotent_promotion.1 testEnvOk _ rfl, ?_⟩
  exact c6_idempotent_promotion.2 testEnvOk testEnvOk
    { testState with pending := ["x\n"], pending_bytes := 2 }
    (fun _ => rfl) (fun _ => rfl) (by decide) rfl (by decide)

/-- C10 — when the replay of `promoteToFull()` fails at the (k+1)-st
line, the k lines already written stay in the pending buffer (only a
fully successful replay clears it), so a later successful promotion
writes them to the file a second time. -/
theorem c10_failed_replay_duplicates_lines (env env2 : Env) (s : LogState)
    (k : Nat) (ho : ∀ k', env.openOk k' = true)
    (hph : ¬ s.phase = Phase.Full) (hout : s.outputToFile = true)
    (hb : ¬ s.baseName = "") (hinit : s.initialized = true)
    (hfo : s.fileOpen = true)
    (hj : ∀ j, j < k → env.writeOk (s.writeCount + j) = true)
    (hk : env.writeOk (s.writeCount + k) = false)
    (hklen : k < s.pending.length)
    (hw2 : ∀ k', env2.writeOk k' = true) (ho2 : ∀ k', env2.openOk k' = true) :
    (promoteToFull env s).pending = s.pending ∧
    writtenData (promoteToFull env s).events
      = writtenData s.events ++ s.pending.take k ∧
    writtenData (promoteToFull env2 (promoteToFull env s)).events
      = writtenData s.events ++ s.pending.take k ++ s.pending ∧
    (promoteToFull env2 (promoteToFull env s)).pending = [] ∧
    (promoteToFull env2 (promoteToFull env s)).phase = Phase.Full := by
  obtain ⟨f1, f2, f3, f4, f5, f6, f7, f8, f9⟩ :=
    promote_fail env ho s k hph hout hb hinit hfo hj hk hklen
  have hs' := promote_success env2 hw2 ho2 (promoteToFull env s)
    (by rw [f3]; exact hph) (by rw [f9]; exact hout) (by rw [f8]; exact hb)
  refine ⟨f1, f7, ?_, hs'.2.1, hs'.1⟩
  rw [hs'.2.2.2.1, f7, f1]

/-- Witness for C10: with two pending lines and the second write
failing, the first line is written, kept in the buffer, and written
again by the successful retry — it appears twice in the file. -/
theorem c10_failed_replay_duplicates_lines_witness :
    (promoteToFull testEnvWrite1Fails
        { testState with initialized := true, fileOpen := true,
                         pending := ["a\n", "b\n"], pending_bytes := 4,
                         curFilePath := "b_20250101_1.log",
                         currentRollIndex := 1 }).pending = ["a\n", "b\n"] ∧
    writtenData (promoteToFull testEnvOk (promoteToFull testEnvWrite1Fails
        { testState with initialized := true, fileOpen := true,
                         pending := ["a\n", "b\n"], pending_bytes := 4,
                         curFilePath := "b_20250101_1.log",
                         currentRollIndex := 1 })).events
      = ["a\n", "a\n", "b\n"] := by
  have h := c10_failed_replay_duplicates_lines testEnvWrite1Fails testEnvOk
    { testState with initialized := true, fileOpen := true,
                     pending := ["a\n", "b\n"], pending_bytes := 4,
                     curFilePath := "b_20250101_1.log",
                     currentRollIndex := 1 }
    1 (fun _ => rfl) (by decide) rfl (by decide) rfl rfl
    (by decide) (by decide) (by decide) (fun _ => rfl) (fun _ => rfl)
  refine ⟨h.1, ?_⟩
  rw [h.2.2.1]
  rfl

/-! ## Size-triggered rotation in `writeToFile_` -/

/-- Healing (`maybeHealUnlinked_`) is a no-op when the check interval is 0. -/
theorem maybeHeal_disabled (env : Env) (s : LogState)
    (h : s.heal_every = 0) : maybeHealUnlinked env s = s := by
  simp only [maybeHealUnlinked]
  rw [if_pos (Or.inl h)]

/-- Rolling (`rollFiles_`) only ever appends to the event trace. -/
theorem rollFiles_events_suffix (env : Env) (v : LogState) :
    ∃ t, (rollFiles env v).events = v.events ++ t := by
  simp only [rollFiles]
  by_cases hbn : v.baseName = ""
  · rw [if_pos hbn]
    exact ⟨[], by simp⟩
  · rw [if_neg hbn]
    by_cases ho : env.openOk v.openCount = true
    · rw [if_pos ho]
      exact ⟨_, rfl⟩
    · rw [if_neg ho]
      exact ⟨[], by simp [report]⟩

/-- The post-write tail of `writeToFile_` only ever appends to the event
trace. -/
theorem afterWrite_events (env : Env) (u : LogState) (msgSize : Nat) :
    ∃ t, (afterWrite env u msgSize).events = u.events ++ t := by
  have key : ∀ v : LogState, v.events = u.events →
      ∃ t, (rollFiles env v).events = u.events ++ t := by
    intro v hv
    obtain ⟨t, ht⟩ := rollFiles_events_suffix env v
    exact ⟨t, by rw [ht, hv]⟩
  simp only [afterWrite]
  by_cases haf : u.auto_flush = true
  · simp only [haf, eq_self_iff_true, if_true]
    by_cases hfl : env.writeOk u.writeCount = false
    · rw [if_pos hfl]
      exact ⟨[], by simp [report]⟩
    · rw [if_neg hfl]
      try dsimp only
      by_cases hpr : u.currentSize + msgSize ≥ u.maxSizeInBytes
      · rw [if_pos hpr]
        exact key _ rfl
      · rw [if_neg hpr]
        exact ⟨[], by simp⟩
  · have haf' : u.auto_flush = false := by
      revert haf
      cases u.auto_flush <;> simp
    simp only [haf', Bool.false_eq_true, if_false]
    rw [if_neg (show ¬ (true : Bool) = false by simp)]
    try dsimp only
    by_cases hpr : u.currentSize + msgSize ≥ u.maxSizeInBytes
    · rw [if_pos hpr]
      exact key _ rfl
    · rw [if_neg hpr]
      exact ⟨[], by simp⟩

/-- C5 — before each write on an open file (self-heal disabled), the
file is rolled to the next slot if and only if the tracked size is
nonzero and adding the incoming record (newline included) would exceed
the byte cap; every roll increments the roll index, wraps it to 1 once
it exceeds the maximum, latches the wrap flag, and opens the slot in
truncate mode exactly when the wrap flag is (or becomes) set. -/
theorem c5_size_triggered_rotation :
    (∀ (env : Env) (s : LogState) (msg : String) (nl : Bool),
      s.heal_every = 0 → s.outputToFile = true → s.fileOpen = true →
      ¬ s.baseName = "" → (∀ k, env.writeOk k = true) →
      (∀ k, env.openOk k = true) →
      ∃ t, (writeToFile env s msg nl).events
        = s.events
          ++ (if s.currentSize > 0 ∧
                s.currentSize + (msg.length + (if nl then 1 else 0))
                  > s.maxSizeInBytes
              then [FsEvent.opened (rollIdxNext s) (rollWrapFlag s)]
              else [])
          ++ [FsEvent.wrote (msg ++ (if nl then "\n" else ""))] ++ t) ∧
    (∀ (env : Env) (s : LogState), ¬ s.baseName = "" →
      env.openOk s.openCount = true →
      (rollFiles env s).currentRollIndex = rollIdxNext s ∧
      (rollFiles env s).isRoll = rollWrapFlag s ∧
      (rollFiles env s).events
        = s.events ++ [FsEvent.opened (rollIdxNext s) (rollWrapFlag s)] ∧
      (¬ s.currentRollIndex + 1 > s.maxRolls →
        rollIdxNext s = s.currentRollIndex + 1 ∧ rollWrapFlag s = s.isRoll) ∧
      (s.currentRollIndex + 1 > s.maxRolls →
        rollIdxNext s = 1 ∧ rollWrapFlag s = true) ∧
      (s.isRoll = true → rollWrapFlag s = true)) := by
  constructor
  · intro env s msg nl hheal hout hfo hb hw ho
    simp only [writeToFile]
    rw [if_neg (show ¬ s.outputToFile = false by simp [hout])]
    rw [maybeHeal_disabled env s hheal]
    rw [if_neg (show ¬ s.fileOpen = false by simp [hfo])]
    rw [if_neg (show ¬ s.fileOpen = false by simp [hfo])]
    by_cases hc : s.currentSize > 0 ∧
        s.currentSize + (msg.length + (if nl then 1 else 0))
          > s.maxSizeInBytes
    · rw [if_pos hc, if_pos hc]
      obtain ⟨hf1, hf2, hf3, hf4, hf5, hf6, hf7, hf8, hf9, hf10⟩ :=
        rollFiles_fields env s hb (ho s.openCount)
      simp only [hf1, hf8, hw, Bool.true_and, eq_self_iff_true, if_true]
      obtain ⟨t, ht⟩ := afterWrite_events env
        { (rollFiles env s) with
            fileOpen := true
            writeCount := s.writeCount + 1
            events := (rollFiles env s).events
              ++ [FsEvent.wrote (msg ++ (if nl then "\n" else ""))] }
        (msg.length + (if nl then 1 else 0))
      refine ⟨t, ht.trans ?_⟩
      dsimp only
      rw [rollFiles_ok env s hb (ho s.openCount)]
      try dsimp only
      try simp
    · rw [if_neg hc, if_neg hc]
      simp only [hfo, hw, Bool.true_and, eq_self_iff_true, if_true]
      obtain ⟨t, ht⟩ := afterWrite_events env
        { s with
            fileOpen := true
            writeCount := s.writeCount + 1
            events := s.events
              ++ [FsEvent.wrote (msg ++ (if nl then "\n" else ""))] }
        (msg.length + (if nl then 1 else 0))
      refine ⟨t, ht.trans ?_⟩
      dsimp only
      simp
  · intro env s hb ho
    rw [rollFiles_ok env s hb ho]
    refine ⟨rfl, rfl, rfl, ?_, ?_, ?_⟩
    · intro h
      exact ⟨by simp [rollIdxNext, h], by simp [rollWrapFlag, h]⟩
    · intro h
      exact ⟨by simp [rollIdxNext, h], by simp [rollWrapFlag, h]⟩
    · intro h
      simp only [rollWrapFlag, h]
      split <;> rfl

/-- Witness for C5: a 90-byte file with a 100-byte cap and an 11-byte
incoming record triggers the pre-write roll; the roll-index arithmetic
at the base fixture. -/
theorem c5_size_triggered_rotation_witness :
    (∃ t, (writeToFile testEnvOk testStateOpen "0123456789" true).events
      = testStateOpen.events
        ++ (if testStateOpen.currentSize > 0 ∧
              testStateOpen.currentSize
                + ("0123456789".length + (if true then 1 else 0))
                > testStateOpen.maxSizeInBytes
            then [FsEvent.opened (rollIdxNext testStateOpen)
                    (rollWrapFlag testStateOpen)]
            else [])
        ++ [FsEvent.wrote ("0123456789" ++ (if true then "\n" else ""))]
        ++ t) ∧
    (rollFiles testEnvOk testState).currentRollIndex
      = rollIdxNext testState := by
  refine ⟨c5_size_triggered_rotation.1 testEnvOk testStateOpen "0123456789"
    true rfl rfl rfl (by decide) (fun _ => rfl) (fun _ => rfl), ?_⟩
  exact (c5_size_triggered_rotation.2 testEnvOk testState (by decide) rfl).1

end MLLog
